import Mathlib

/-!
Shallow embedding of the netcode.io server module (src/rust/src/server/mod.rs).

The server module's collaborators (the packet codec, the per-client secure
channel, the connect-token codec and the cryptographic primitives) live in
sibling modules that are referenced only through their interfaces; they are
modelled here as an `Oracles` record of uninterpreted functions whose results
the server code consumes.  Socket sends are recorded in an explicit trace of
`Sent` values, and socket receives are supplied as an explicit list of inbound
datagrams.  The 64-bit integers of the Rust code (client ids, sequences,
times in seconds) are modelled as `Nat`; no arithmetic in the server module
can overflow a `u64` in any claim considered here (the only increments are
`challenge_sequence + 1` and the event cursor).  The `f64` virtual clock is
modelled as an exact rational number.
-/

namespace Netcode

/-- Maximum payload size in bytes.  Modelled from the spec: the constant
lives in the crate's common module, which is not part of the given source;
the spec fixes it at 1200. -/
def NETCODE_MAX_PAYLOAD_SIZE : Nat := 1200

/-- Size of the user-data blob carried by tokens.  Modelled from the spec:
the constant lives in the crate's common module; the spec fixes it at 256. -/
def NETCODE_USER_DATA_BYTES : Nat := 256

/-- Protocol version tag.  Modelled from the spec: a fixed 13-byte ASCII
string; the concrete bytes live in the crate's common module.  Only equality
with a request's version field matters to the server code. -/
def NETCODE_VERSION_STRING : List Nat := [78, 69, 84, 67, 79, 68, 69, 32, 49, 46, 48, 49, 0]

/-- A socket address: ip (abstracted to a number) and port, mirroring
std::net::SocketAddr as far as the server code inspects it (whole-address
equality, `.ip()` and `.port()`). -/
structure SockAddr where
  ip : Nat
  port : Nat
  deriving DecidableEq, Repr

/-- A 32-byte key, abstracted to an opaque number. -/
abbrev Key := Nat

/-- Decoded private data of a connect token (token::PrivateData). -/
structure PrivateData where
  client_id : Nat
  server_to_client_key : Key
  client_to_server_key : Key
  user_data : List Nat
  hosts : List SockAddr
  deriving DecidableEq, Repr

/-- The wire form of a connection request (packet::ConnectionRequestPacket). -/
structure ConnectionRequestPacket where
  version : List Nat
  protocol_id : Nat
  token_expire : Nat
  sequence : Nat
  private_data : List Nat
  deriving DecidableEq, Repr

/-- A sealed challenge (packet::ChallengePacket). -/
structure ChallengePacket where
  token_sequence : Nat
  token_data : List Nat
  deriving DecidableEq, Repr

/-- A response carrying back the sealed challenge (packet::ResponsePacket). -/
structure ResponsePacket where
  token_sequence : Nat
  token_data : List Nat
  deriving DecidableEq, Repr

/-- A decrypted challenge token ({client_id, user_data}). -/
structure ChallengeToken where
  client_id : Nat
  user_data : List Nat
  deriving DecidableEq, Repr

/-- The packet sum type as the server recognises it (packet::Packet).  The
payload bytes of a Payload packet travel through the out buffer, so the
variant carries only the length, as in the source. -/
inductive Packet where
  | connectionRequest (req : ConnectionRequestPacket)
  | connectionDenied
  | challenge (c : ChallengePacket)
  | response (r : ResponsePacket)
  | keepAlive (client_idx : Nat)
  | payload (len : Nat)
  | disconnect
  deriving DecidableEq, Repr

/-- Connection state of a slot (server::connection::ConnectionState). -/
inductive ConnectionState where
  | PendingResponse
  | Idle
  | TimedOut
  | Disconnected
  deriving DecidableEq, Repr

/-- The per-client secure channel, as far as the server module constructs and
inspects it: Channel::new receives both directional keys, the peer address,
the protocol id, the slot index and the capacity.  Its mutable internals
(send sequence, replay window, timestamps) are opaque to the server module
and are represented by an abstract `internal` component that the channel
oracles may rewrite. -/
structure Channel where
  server_to_client_key : Key
  client_to_server_key : Key
  addr : SockAddr
  protocol_id : Nat
  slot_idx : Nat
  capacity : Nat
  internal : Nat
  deriving DecidableEq, Repr

/-- Channel.new as called by the server (fresh internal state). -/
def Channel.new (s2c c2s : Key) (addr : SockAddr) (protocol_id : Nat)
    (slot_idx capacity : Nat) : Channel :=
  { server_to_client_key := s2c, client_to_server_key := c2s, addr := addr,
    protocol_id := protocol_id, slot_idx := slot_idx, capacity := capacity, internal := 0 }

/-- A slot entry (server::connection::Connection). -/
structure Connection where
  client_id : Nat
  state : ConnectionState
  channel : Channel
  deriving DecidableEq, Repr

/-- Events surfaced to the embedder (server::ServerEvent). -/
inductive ServerEvent where
  | ClientConnect (id : Nat)
  | ClientDisconnect (id : Nat)
  | ClientSlotFull
  | Packet (id : Nat) (len : Nat)
  | KeepAlive (id : Nat)
  | RejectedClient
  | ReplayRejected (id : Nat)
  deriving DecidableEq, Repr

/-- Errors from sending (error::SendError). -/
inductive SendError where
  | PacketSize
  | InvalidClientId
  | SocketError
  | EncodeError
  deriving DecidableEq, Repr

/-- Errors from receiving (error::RecvError). -/
inductive RecvError where
  | SocketError
  | DecodeError
  | DuplicateSequence
  deriving DecidableEq, Repr

/-- Errors from next_event (error::UpdateError). -/
inductive UpdateError where
  | PacketBufferTooSmall
  | sendErr (e : SendError)
  | recvErr (e : RecvError)
  | decodeErr
  deriving DecidableEq, Repr

/-- Result of one channel liveness tick (channel::UpdateResult). -/
inductive ChanUpdateResult where
  | Expired
  | SentKeepAlive
  | Noop
  deriving DecidableEq, Repr

/-- Result of ticking one client (server::TickResult). -/
inductive TickResult where
  | Noop
  | StateChange (st : ConnectionState)
  | SendKeepAlive
  deriving DecidableEq, Repr

/-- A datagram handed to the socket, recorded for the proofs: either the
hand-rolled ConnectionDenied of send_denied_packet (with its literal
sequence and sealing key), a packet sent through a client's channel, or a
keep-alive sent through a client's channel. -/
inductive Sent where
  | denied (addr : SockAddr) (seq : Nat) (key : Key)
  | chan (addr : SockAddr) (p : Packet) (payload : Option (List Nat))
  | keepAlive (addr : SockAddr)
  deriving DecidableEq, Repr

/-- The server state (server::Server).  The listen socket itself is external;
its sends are traced and its receives are passed in. -/
structure ServerState where
  listen_addr : SockAddr
  protocol_id : Nat
  connect_key : Key
  clients : List (Option Connection)
  time : Rat
  challenge_sequence : Nat
  challenge_key : Key
  client_event_idx : Nat
  deriving DecidableEq, Repr

/-- Uninterpreted interfaces of the collaborating modules: token decoding,
wall-clock time, challenge generation, packet decoding for fresh addresses,
and the channel operations.  The channel operations return the updated
channel value alongside their result, standing for the in-place mutation the
Rust code performs through a mutable borrow; chanRecv also returns the bytes
it wrote into the out buffer. -/
structure Oracles where
  tokenDecode : List Nat → Nat → Nat → Nat → Key → Option PrivateData
  now : Nat
  genChallenge : Nat → List Nat → Nat → Key → ChallengePacket
  pktDecode : List Nat → Nat → Option Packet
  chanSend : Channel → Rat → Packet → Option (List Nat) → Channel × Nat
  chanRecv : Channel → Rat → List Nat → List Nat → Except (RecvError × Channel) (Packet × Channel × List Nat)
  chanKeepAlive : Channel → Rat → Channel
  chanUpdate : Channel → Rat → Bool → Channel × ChanUpdateResult
  respDecode : ResponsePacket → Key → Option ChallengeToken

/-- Iterator::position as the Rust code uses it on the slot vector: index of
the first element satisfying the predicate. -/
def position (p : α → Bool) : List α → Option Nat
  | [] => none
  | x :: xs => if p x then some 0 else (position p xs).map (· + 1)

/-- find_client_by_id from the source. -/
def find_client_by_id (s : ServerState) (id : Nat) : Option Nat :=
  position (fun v => v.elim false (fun c => c.client_id == id)) s.clients

/-- find_client_by_addr from the source. -/
def find_client_by_addr (s : ServerState) (addr : SockAddr) : Option Nat :=
  position (fun v => v.elim false (fun c => c.channel.addr == addr)) s.clients

/-- Replace slot `i` of the slot table. -/
def setSlot (s : ServerState) (i : Nat) (c : Option Connection) : ServerState :=
  { s with clients := s.clients.set i c }

/-- Advance the event cursor by one. -/
def advanceCursor (s : ServerState) : ServerState :=
  { s with client_event_idx := s.client_event_idx + 1 }

/-- validate_client_token from the source: version check, expiry check
against the wall clock, private-data decode under
(protocol_id, token_expire, sequence, private_key), and the host-list check
with exact match or ip-only match when the bound port is zero. -/
def validate_client_token (decode : List Nat → Nat → Nat → Nat → Key → Option PrivateData)
    (protocol_id : Nat) (host : SockAddr) (private_key : Key)
    (req : ConnectionRequestPacket) (now : Nat) : Option PrivateData :=
  if req.version ≠ NETCODE_VERSION_STRING then
    none
  else if now > req.token_expire then
    none
  else
    match decode req.private_data protocol_id req.token_expire req.sequence private_key with
    | some v =>
      if v.hosts.any (fun thost => thost == host || (host.port == 0 && thost.ip == host.ip)) then
        some v
      else
        none
    | none => none

/-- send_packet from the source: look up the slot by client id (the source
inlines the same position scan that find_client_by_id performs) and seal the
packet through that slot's channel.  Returns the updated server, the traced
datagram and the byte count the channel reports. -/
def send_packet (o : Oracles) (s : ServerState) (client_id : Nat)
    (p : Packet) (payload : Option (List Nat)) :
    Except SendError (ServerState × List Sent × Nat) :=
  match find_client_by_id s client_id with
  | some idx =>
    match s.clients.get? idx with
    | some (some c) =>
      let r := o.chanSend c.channel s.time p payload
      .ok (setSlot s idx (some { c with channel := r.1 }),
           [Sent.chan c.channel.addr p payload], r.2)
    | _ => .error SendError.InvalidClientId
  | none => .error SendError.InvalidClientId

/-- send from the source: size validation then delegation to send_packet
with a Payload packet. -/
def send (o : Oracles) (s : ServerState) (client_id : Nat) (packet : List Nat) :
    Except SendError (ServerState × List Sent × Nat) :=
  if packet.length == 0 || packet.length > NETCODE_MAX_PAYLOAD_SIZE then
    .error SendError.PacketSize
  else
    send_packet o s client_id (Packet.payload packet.length) (some packet)

/-- update from the source: accumulate elapsed time and reset the event
cursor.  The Rust signature allows an io::Error but the body has no failure
path; the Except layer mirrors that signature. -/
def update (s : ServerState) (elapsed : Rat) : Except UpdateError ServerState :=
  .ok { s with time := s.time + elapsed, client_event_idx := 0 }

/-- Tail of handle_client_connect after the slot phase: bump
challenge_sequence, generate the challenge under the challenge key and send
it through the client's channel. -/
def hcc_challenge (o : Oracles) (s : ServerState) (pd : PrivateData) :
    ServerState × List Sent × Except UpdateError (Option ServerEvent) :=
  let s1 := { s with challenge_sequence := s.challenge_sequence + 1 }
  let ch := o.genChallenge pd.client_id pd.user_data s1.challenge_sequence s1.challenge_key
  match send_packet o s1 pd.client_id (Packet.challenge ch) none with
  | .ok (s2, sent, _) => (s2, sent, .ok none)
  | .error e => (s1, [], .error (UpdateError.sendErr e))

/-- handle_client_connect from the source: validate the token; if the client
id is already present skip allocation; otherwise take the first empty slot or,
when none exists, send the hand-rolled ConnectionDenied (sequence 0 under the
token's server-to-client key) and report ClientSlotFull; then issue the
challenge. -/
def handle_client_connect (o : Oracles) (s : ServerState) (addr : SockAddr)
    (req : ConnectionRequestPacket) :
    ServerState × List Sent × Except UpdateError (Option ServerEvent) :=
  match validate_client_token o.tokenDecode s.protocol_id s.listen_addr s.connect_key req o.now with
  | some pd =>
    match find_client_by_id s pd.client_id with
    | some _ => hcc_challenge o s pd
    | none =>
      match position (fun v => v.isNone) s.clients with
      | some idx =>
        let conn : Connection :=
          { client_id := pd.client_id, state := ConnectionState.PendingResponse,
            channel := Channel.new pd.server_to_client_key pd.client_to_server_key addr
              s.protocol_id idx s.clients.length }
        hcc_challenge o (setSlot s idx (some conn)) pd
      | none =>
        (s, [Sent.denied addr 0 pd.server_to_client_key], .ok (some ServerEvent.ClientSlotFull))
  | none => (s, [], .ok (some ServerEvent.RejectedClient))

/-- Result of one packet- or event-handling call: the updated server, the
trace of datagrams sent, the out buffer contents, and the event or error the
call reports. -/
structure Outcome where
  s : ServerState
  sent : List Sent
  out : List Nat
  r : Except UpdateError (Option ServerEvent)
  deriving Repr

/-- Common tail of handle_packet: write the tracked state back into the slot
when it is still occupied, as the source does through a fresh lookup. -/
def finishWrite (s : ServerState) (idx : Nat) (st : ConnectionState)
    (sent : List Sent) (out : List Nat) (ev : Option ServerEvent) : Outcome :=
  match s.clients.get? idx with
  | some (some c) => ⟨setSlot s idx (some { c with state := st }), sent, out, .ok ev⟩
  | _ => ⟨s, sent, out, .ok ev⟩

/-- Per-state dispatch of handle_packet on the decoded packet, mirroring the
source's match on the snapshotted state: payload/keep-alive/disconnect while
Idle; response (challenge decode, user-data copy, immediate keep-alive,
transition to Idle, ClientConnect) and re-run of the admission step while
PendingResponse; everything else logged and dropped. -/
def handle_packet_state (o : Oracles) (s : ServerState) (idx client_id : Nat)
    (st : ConnectionState) (addr : SockAddr) (decoded : Packet) (out : List Nat) : Outcome :=
  match st with
  | ConnectionState.Idle =>
    match decoded with
    | Packet.payload len =>
      finishWrite s idx ConnectionState.Idle [] out (some (ServerEvent.Packet client_id len))
    | Packet.keepAlive _ =>
      finishWrite s idx ConnectionState.Idle [] out (some (ServerEvent.KeepAlive client_id))
    | Packet.disconnect =>
      finishWrite s idx ConnectionState.Disconnected [] out
        (some (ServerEvent.ClientDisconnect client_id))
    | _ => finishWrite s idx ConnectionState.Idle [] out none
  | ConnectionState.PendingResponse =>
    match decoded with
    | Packet.response resp =>
      match o.respDecode resp s.challenge_key with
      | some token =>
        let out2 := token.user_data.take NETCODE_USER_DATA_BYTES
          ++ out.drop NETCODE_USER_DATA_BYTES
        match s.clients.get? idx with
        | some (some c) =>
          let s1 := setSlot s idx (some { c with channel := o.chanKeepAlive c.channel s.time })
          finishWrite s1 idx ConnectionState.Idle [Sent.keepAlive c.channel.addr] out2
            (some (ServerEvent.ClientConnect token.client_id))
        | _ =>
          finishWrite s idx ConnectionState.Idle [] out2
            (some (ServerEvent.ClientConnect token.client_id))
      | none => ⟨s, [], out, .error UpdateError.decodeErr⟩
    | Packet.connectionRequest req =>
      let r := handle_client_connect o s addr req
      match r.2.2 with
      | .ok _ => finishWrite r.1 idx ConnectionState.PendingResponse r.2.1 out none
      | .error e => ⟨r.1, r.2.1, out, .error e⟩
    | _ => finishWrite s idx ConnectionState.PendingResponse [] out none
  | _ => finishWrite s idx st [] out none

/-- handle_packet from the source: drop empty datagrams; run the channel's
authenticated receive; on a duplicate sequence report ReplayRejected and keep
the slot; on any other receive error mark the slot Disconnected and report
ClientDisconnect; on success snapshot (client_id, state, addr) and dispatch
on the decoded packet.  The channel value returned by the oracle stands for
the in-place mutation of the borrowed channel, also on the error paths. -/
def handle_packet (o : Oracles) (s : ServerState) (client_idx : Nat)
    (packet : List Nat) (out : List Nat) : Outcome :=
  if packet.length == 0 then
    ⟨s, [], out, .ok none⟩
  else
    match s.clients.get? client_idx with
    | some (some client) =>
      match o.chanRecv client.channel s.time packet out with
      | .error pr =>
        match pr.1 with
        | RecvError.DuplicateSequence =>
          ⟨setSlot s client_idx (some { client with channel := pr.2 }), [], out,
           .ok (some (ServerEvent.ReplayRejected client.client_id))⟩
        | _ =>
          ⟨setSlot s client_idx
             (some { client with channel := pr.2, state := ConnectionState.Disconnected }),
           [], out, .ok (some (ServerEvent.ClientDisconnect client.client_id))⟩
      | .ok (decoded, ch2, out1) =>
        let s0 := setSlot s client_idx (some { client with channel := ch2 })
        handle_packet_state o s0 client_idx client.client_id client.state ch2.addr decoded out1
    | _ => ⟨s, [], out, .ok none⟩

/-- handle_io from the source: demultiplex by source address; for an unknown
address decode without a session key and run the admission step on a
ConnectionRequest (anything else, including a decode failure, is dropped);
for a known address hand the datagram to handle_packet. -/
def handle_io (o : Oracles) (s : ServerState) (addr : SockAddr)
    (data : List Nat) (out : List Nat) : Outcome :=
  match find_client_by_addr s addr with
  | none =>
    match o.pktDecode data s.protocol_id with
    | some (Packet.connectionRequest req) =>
      let r := handle_client_connect o s addr req
      ⟨r.1, r.2.1, out, r.2.2⟩
    | _ => ⟨s, [], out, .ok none⟩
  | some client_idx => handle_packet o s client_idx data out

/-- Map a channel tick result to the server's TickResult, as both arms of
tick_client do. -/
def mapTick : ChanUpdateResult → TickResult
  | ChanUpdateResult.Expired => TickResult.StateChange ConnectionState.TimedOut
  | ChanUpdateResult.SentKeepAlive => TickResult.SendKeepAlive
  | ChanUpdateResult.Noop => TickResult.Noop

/-- tick_client from the source: run the channel liveness tick with
keep-alives enabled only while Idle; a terminal slot is a Noop. -/
def tick_client (time : Rat) (client : Connection) (o : Oracles) : Connection × TickResult :=
  match client.state with
  | ConnectionState.PendingResponse =>
    let r := o.chanUpdate client.channel time false
    ({ client with channel := r.1 }, mapTick r.2)
  | ConnectionState.Idle =>
    let r := o.chanUpdate client.channel time true
    ({ client with channel := r.1 }, mapTick r.2)
  | _ => (client, TickResult.Noop)

/-- The tick-phase loop of next_event.  The Rust loop runs the cursor up to
the table length; each iteration either returns an event or advances the
cursor by one, so the loop performs exactly length - cursor iterations, which
tick_phase supplies as structural fuel. -/
def tick_loop (o : Oracles) : Nat → ServerState → ServerState × List Sent × Option ServerEvent
  | 0, s => (s, [], none)
  | fuel + 1, s =>
    if s.client_event_idx < s.clients.length then
      match s.clients.get? s.client_event_idx with
      | some (some client) =>
        let tc := tick_client s.time client o
        match tc.2 with
        | TickResult.Noop =>
          tick_loop o fuel (advanceCursor (setSlot s s.client_event_idx (some tc.1)))
        | TickResult.StateChange st =>
          match st with
          | ConnectionState.TimedOut =>
            (advanceCursor (setSlot s s.client_event_idx none), [],
             some (ServerEvent.ClientDisconnect client.client_id))
          | ConnectionState.Disconnected =>
            (advanceCursor (setSlot s s.client_event_idx none), [],
             some (ServerEvent.ClientDisconnect client.client_id))
          | _ =>
            tick_loop o fuel
              (advanceCursor (setSlot s s.client_event_idx (some { tc.1 with state := st })))
        | TickResult.SendKeepAlive =>
          (advanceCursor (setSlot s s.client_event_idx (some tc.1)),
           [Sent.keepAlive tc.1.channel.addr],
           some (ServerEvent.KeepAlive client.client_id))
      | _ => tick_loop o fuel (advanceCursor s)
    else (s, [], none)

/-- Tick phase entry point: run the loop over the remaining slots. -/
def tick_phase (o : Oracles) (s : ServerState) : ServerState × List Sent × Option ServerEvent :=
  tick_loop o (s.clients.length - s.client_event_idx) s

/-- The I/O phase of next_event: repeatedly receive; a datagram whose
handling produces no event is absorbed and the loop continues; an event or
error returns immediately, leaving the remaining datagrams queued; an
exhausted queue is the WouldBlock break into the tick phase. -/
def io_phase (o : Oracles) :
    List (SockAddr × List Nat) → ServerState → List Nat →
    ServerState × List Sent × List (SockAddr × List Nat) × List Nat
      × Except UpdateError (Option ServerEvent)
  | [], s, out => (s, [], [], out, .ok none)
  | (addr, data) :: rest, s, out =>
    let oc := handle_io o s addr data out
    match oc.r with
    | .ok none =>
      let r := io_phase o rest oc.s oc.out
      (r.1, oc.sent ++ r.2.1, r.2.2.1, r.2.2.2.1, r.2.2.2.2)
    | .ok (some e) => (oc.s, oc.sent, rest, oc.out, .ok (some e))
    | .error e => (oc.s, oc.sent, rest, oc.out, .error e)

/-- next_event from the source: reject an undersized out buffer before
touching the socket, then the I/O phase, then the tick phase.  `incoming`
lists the datagrams the socket will deliver before reporting WouldBlock; the
third component of the result is the queue left unread. -/
def next_event (o : Oracles) (incoming : List (SockAddr × List Nat))
    (s : ServerState) (out : List Nat) :
    ServerState × List Sent × List (SockAddr × List Nat) × List Nat
      × Except UpdateError (Option ServerEvent) :=
  if out.length < NETCODE_MAX_PAYLOAD_SIZE then
    (s, [], incoming, out, .error UpdateError.PacketBufferTooSmall)
  else
    match io_phase o incoming s out with
    | (s1, sent1, left, out1, .ok none) =>
      let t := tick_phase o s1
      (t.1, sent1 ++ t.2.1, left, out1, .ok t.2.2)
    | other => other

/-- Occupied slots carry pairwise distinct client ids. -/
def clientIdsDistinct (l : List (Option Connection)) : Prop :=
  ∀ i j ci cj, i ≠ j → l.get? i = some (some ci) → l.get? j = some (some cj) →
    ci.client_id ≠ cj.client_id

/-- Every occupied slot of `b` was already occupied in `a` with the same
client id (slots may change state or channel, or be released, but no slot
appears and no id changes). -/
def idsPreserved (a b : List (Option Connection)) : Prop :=
  ∀ i cb, b.get? i = some (some cb) →
    ∃ ca, a.get? i = some (some ca) ∧ ca.client_id = cb.client_id

/-- One externally triggerable server operation: an update tick, an
application send that succeeded, or one next_event call (with any queue of
inbound datagrams and any out buffer). -/
inductive Step (o : Oracles) : ServerState → ServerState → Prop where
  | stepUpdate (s s2 : ServerState) (dt : Rat) (h : update s dt = .ok s2) : Step o s s2
  | stepSend (s s2 : ServerState) (cid : Nat) (p : List Nat) (sent : List Sent) (n : Nat)
      (h : send o s cid p = .ok (s2, sent, n)) : Step o s s2
  | stepNext (s : ServerState) (incoming : List (SockAddr × List Nat)) (out : List Nat) :
      Step o s (next_event o incoming s out).1

/-- Concrete peer-facing address used by the witnesses. -/
def wAddr : SockAddr := ⟨1, 10⟩

/-- Second concrete address used by the witnesses. -/
def wAddrB : SockAddr := ⟨2, 20⟩

/-- Concrete channel used by the witnesses. -/
def wChan : Channel := Channel.new 11 12 wAddrB 100 0 2

/-- Concrete connection used by the witnesses. -/
def wConn : Connection := ⟨7, ConnectionState.Idle, wChan⟩

/-- Concrete token private data used by the witnesses. -/
def wPd : PrivateData := ⟨7, 11, 12, [1, 2, 3], [wAddr]⟩

/-- Concrete connection request used by the witnesses. -/
def wReq : ConnectionRequestPacket := ⟨NETCODE_VERSION_STRING, 100, 10, 1, [0]⟩

/-- Concrete oracle bundle used by the witnesses. -/
def wOracle : Oracles :=
  ⟨fun _ _ _ _ _ => some wPd, 5,
   fun cid _ seqn _ => ⟨seqn, [cid]⟩,
   fun _ _ => none,
   fun c _ _ _ => ({ c with internal := c.internal + 1 }, 42),
   fun c _ _ out => .ok (Packet.payload 3, c, out),
   fun c _ => { c with internal := c.internal + 7 },
   fun c _ _ => (c, ChanUpdateResult.Noop),
   fun _ _ => some ⟨7, List.replicate NETCODE_USER_DATA_BYTES 4⟩⟩

/-- Concrete server state used by the witnesses: slot 0 occupied by client 7,
slot 1 free. -/
def wState : ServerState := ⟨wAddr, 100, 99, [some wConn, none], 0, 0, 77, 0⟩

/-- Oracle whose channel receive reports a duplicate sequence. -/
def wOracleDup : Oracles :=
  { wOracle with chanRecv := fun c _ _ _ => .error (RecvError.DuplicateSequence, c) }

/-- Oracle whose channel receive reports an authenticated-decrypt failure. -/
def wOracleBad : Oracles :=
  { wOracle with chanRecv := fun c _ _ _ => .error (RecvError.DecodeError, c) }

/-- Concrete response packet used by the witnesses. -/
def wResp : ResponsePacket := ⟨1, [2]⟩

/-- Concrete decrypted challenge token used by the witnesses (matching what
wOracle.respDecode returns). -/
def wToken : ChallengeToken := ⟨7, List.replicate NETCODE_USER_DATA_BYTES 4⟩

/-- Oracle whose channel receive decodes to a Response packet. -/
def wOracleResp : Oracles :=
  { wOracle with chanRecv := fun c _ _ out => .ok (Packet.response wResp, c, out) }

/-- Connection pending its challenge response, used by the witnesses. -/
def wConnP : Connection := ⟨7, ConnectionState.PendingResponse, wChan⟩

/-- Server state whose slot 0 is pending a challenge response. -/
def wStateP : ServerState := { wState with clients := [some wConnP, none] }

/-- Second occupied connection, used to build a full slot table. -/
def wConnB : Connection := ⟨8, ConnectionState.Idle, Channel.new 21 22 ⟨3, 30⟩ 100 1 2⟩

/-- Server state with every slot occupied (client 7 in slot 0, client 8 in
slot 1). -/
def wStateFull : ServerState := { wState with clients := [some wConn, some wConnB] }

/-- Token private data for a client id (9) that occupies no slot. -/
def wPd9 : PrivateData := ⟨9, 31, 32, [5], [wAddr]⟩

/-- Oracle whose token decode yields the unconnected client 9. -/
def wOracle9 : Oracles := { wOracle with tokenDecode := fun _ _ _ _ _ => some wPd9 }

theorem position_eq_none {p : α → Bool} :
    ∀ {l : List α}, position p l = none → ∀ i x, l.get? i = some x → p x = false := by
  intro l
  induction l with
  | nil => intro _ i x h; simp at h
  | cons a as ih =>
    intro h i x hx
    unfold position at h
    by_cases hp : p a = true
    · rw [if_pos hp] at h
      exact absurd h (by simp)
    · rw [if_neg hp, Option.map_eq_none'] at h
      cases i with
      | zero =>
        simp only [List.get?] at hx
        cases hx
        simpa using hp
      | succ n => exact ih h n x (by simpa using hx)

theorem position_eq_some {p : α → Bool} :
    ∀ {l : List α} {i : Nat}, position p l = some i → ∃ x, l.get? i = some x ∧ p x = true := by
  intro l
  induction l with
  | nil => intro i h; simp [position] at h
  | cons a as ih =>
    intro i h
    unfold position at h
    by_cases hp : p a = true
    · rw [if_pos hp] at h
      cases h
      exact ⟨a, rfl, hp⟩
    · rw [if_neg hp, Option.map_eq_some'] at h
      obtain ⟨k, hk, rfl⟩ := h
      obtain ⟨x, hx, hpx⟩ := ih hk
      exact ⟨x, by simpa using hx, hpx⟩

theorem position_eq_none_of (p : α → Bool) (l : List α)
    (h : ∀ x ∈ l, p x = false) : position p l = none := by
  induction l with
  | nil => rfl
  | cons a as ih =>
    unfold position
    rw [if_neg (by simp [h a (by simp)]), ih (fun x hx => h x (by simp [hx]))]
    rfl

theorem get?_some_lt {l : List α} {i : Nat} {x : α} (h : l.get? i = some x) : i < l.length :=
  (List.get?_eq_some.mp h).1

theorem idsPreserved_refl (a : List (Option Connection)) : idsPreserved a a :=
  fun _ cb hb => ⟨cb, hb, rfl⟩

theorem idsPreserved_trans {a b c : List (Option Connection)}
    (h1 : idsPreserved a b) (h2 : idsPreserved b c) : idsPreserved a c := by
  intro i cc hc
  obtain ⟨cb, hb, e2⟩ := h2 i cc hc
  obtain ⟨ca, ha, e1⟩ := h1 i cb hb
  exact ⟨ca, ha, e1.trans e2⟩

theorem distinct_of_pres {a b : List (Option Connection)}
    (hp : idsPreserved a b) (hd : clientIdsDistinct a) : clientIdsDistinct b := by
  intro i j ci cj hij hi hj
  obtain ⟨ai, hai, ei⟩ := hp i ci hi
  obtain ⟨aj, haj, ej⟩ := hp j cj hj
  have := hd i j ai aj hij hai haj
  rw [ei, ej] at this
  exact this

theorem pres_set_same {a : List (Option Connection)} {i : Nat} {c c2 : Connection}
    (h : a.get? i = some (some c)) (he : c2.client_id = c.client_id) :
    idsPreserved a (a.set i (some c2)) := by
  intro j cb hb
  by_cases hj : j = i
  · subst hj
    rw [List.get?_set_eq_of_lt _ (get?_some_lt h)] at hb
    obtain rfl := Option.some.inj (Option.some.inj hb)
    exact ⟨c, h, he.symm⟩
  · rw [List.get?_set_ne _ _ (fun hh => hj hh.symm)] at hb
    exact ⟨cb, hb, rfl⟩

theorem pres_set_none {a : List (Option Connection)} {i : Nat} :
    idsPreserved a (a.set i none) := by
  intro j cb hb
  by_cases hj : j = i
  · subst hj
    by_cases hlt : j < a.length
    · rw [List.get?_set_eq_of_lt _ hlt] at hb
      exact absurd hb (by simp)
    · rw [List.get?_eq_none.mpr (by simpa using hlt)] at hb
      exact absurd hb (by simp)
  · rw [List.get?_set_ne _ _ (fun hh => hj hh.symm)] at hb
    exact ⟨cb, hb, rfl⟩

theorem distinct_set_fresh {a : List (Option Connection)} {i : Nat} {c : Connection}
    (hi : a.get? i = some none)
    (hfresh : ∀ j cj, a.get? j = some (some cj) → cj.client_id ≠ c.client_id)
    (hd : clientIdsDistinct a) : clientIdsDistinct (a.set i (some c)) := by
  intro x y cx cy hxy hx hy
  have hlt := get?_some_lt hi
  by_cases hxi : x = i
  · subst hxi
    rw [List.get?_set_eq_of_lt _ hlt] at hx
    obtain rfl := Option.some.inj (Option.some.inj hx)
    rw [List.get?_set_ne _ _ hxy] at hy
    exact fun he => hfresh y cy hy he.symm
  · by_cases hyi : y = i
    · subst hyi
      rw [List.get?_set_eq_of_lt _ hlt] at hy
      obtain rfl := Option.some.inj (Option.some.inj hy)
      rw [List.get?_set_ne _ _ (fun hh => hxi hh.symm)] at hx
      exact hfresh x cx hx
    · rw [List.get?_set_ne _ _ (fun hh => hxi hh.symm)] at hx
      rw [List.get?_set_ne _ _ (fun hh => hyi hh.symm)] at hy
      exact hd x y cx cy hxy hx hy

theorem send_packet_pres (o : Oracles) (s : ServerState) (cid : Nat) (p : Packet)
    (pl : Option (List Nat)) (s2 : ServerState) (sent : List Sent) (n : Nat)
    (h : send_packet o s cid p pl = .ok (s2, sent, n)) :
    idsPreserved s.clients s2.clients := by
  unfold send_packet at h
  cases hf : find_client_by_id s cid with
  | none => rw [hf] at h; exact absurd h (by simp)
  | some idx =>
    rw [hf] at h
    dsimp only at h
    cases hg : s.clients.get? idx with
    | none => rw [hg] at h; exact absurd h (by simp)
    | some v =>
      rw [hg] at h
      cases v with
      | none => exact absurd h (by simp)
      | some c =>
        dsimp only at h
        obtain ⟨h1, -⟩ := Prod.mk.injEq _ _ _ _ ▸ Except.ok.inj h
        rw [← h1]
        exact pres_set_same hg rfl

theorem hcc_challenge_pres (o : Oracles) (s : ServerState) (pd : PrivateData) :
    idsPreserved s.clients (hcc_challenge o s pd).1.clients := by
  unfold hcc_challenge
  dsimp only
  cases hsp : send_packet o { s with challenge_sequence := s.challenge_sequence + 1 }
      pd.client_id
      (Packet.challenge (o.genChallenge pd.client_id pd.user_data
        (s.challenge_sequence + 1) s.challenge_key)) none with
  | ok t =>
    dsimp only
    exact send_packet_pres o { s with challenge_sequence := s.challenge_sequence + 1 }
      pd.client_id
      (Packet.challenge (o.genChallenge pd.client_id pd.user_data
        (s.challenge_sequence + 1) s.challenge_key)) none t.1 t.2.1 t.2.2 hsp
  | error e => exact idsPreserved_refl _

theorem tick_client_id (t : Rat) (c : Connection) (o : Oracles) :
    (tick_client t c o).1.client_id = c.client_id := by
  obtain ⟨id, st, ch⟩ := c
  cases st <;> rfl

theorem handle_client_connect_distinct (o : Oracles) (s : ServerState) (addr : SockAddr)
    (req : ConnectionRequestPacket) (hd : clientIdsDistinct s.clients) :
    clientIdsDistinct (handle_client_connect o s addr req).1.clients := by
  unfold handle_client_connect
  cases hv : validate_client_token o.tokenDecode s.protocol_id s.listen_addr s.connect_key
      req o.now with
  | none => exact hd
  | some pd =>
    dsimp only
    cases hf : find_client_by_id s pd.client_id with
    | some k => exact distinct_of_pres (hcc_challenge_pres o s pd) hd
    | none =>
      dsimp only
      cases hp : position (fun v => v.isNone) s.clients with
      | none => exact hd
      | some idx =>
        dsimp only
        obtain ⟨x, hx, hxn⟩ := position_eq_some hp
        have hxe : x = none := by cases x with | none => rfl | some c => simp at hxn
        subst hxe
        have hfresh : ∀ j cj, s.clients.get? j = some (some cj) →
            cj.client_id ≠ pd.client_id := by
          intro j cj hj
          have hpj := position_eq_none (by
            have := hf
            unfold find_client_by_id at this
            exact this) j (some cj) hj
          simpa using hpj
        exact distinct_of_pres (hcc_challenge_pres o _ pd)
          (@distinct_set_fresh s.clients idx
            { client_id := pd.client_id, state := ConnectionState.PendingResponse,
              channel := Channel.new pd.server_to_client_key pd.client_to_server_key addr
                s.protocol_id idx s.clients.length }
            hx hfresh hd)

theorem finishWrite_pres (s : ServerState) (idx : Nat) (st : ConnectionState)
    (sent : List Sent) (out : List Nat) (ev : Option ServerEvent) :
    idsPreserved s.clients (finishWrite s idx st sent out ev).s.clients := by
  unfold finishWrite
  cases hg : s.clients.get? idx with
  | none => exact idsPreserved_refl _
  | some v =>
    cases v with
    | none => exact idsPreserved_refl _
    | some c => exact pres_set_same hg rfl

theorem handle_packet_state_distinct (o : Oracles) (s : ServerState) (idx cid : Nat)
    (st : ConnectionState) (addr : SockAddr) (dec : Packet) (out : List Nat)
    (hd : clientIdsDistinct s.clients) :
    clientIdsDistinct (handle_packet_state o s idx cid st addr dec out).s.clients := by
  unfold handle_packet_state
  cases st with
  | Idle => cases dec <;> exact distinct_of_pres (finishWrite_pres _ _ _ _ _ _) hd
  | TimedOut => exact distinct_of_pres (finishWrite_pres _ _ _ _ _ _) hd
  | Disconnected => exact distinct_of_pres (finishWrite_pres _ _ _ _ _ _) hd
  | PendingResponse =>
    cases dec with
    | connectionRequest req =>
      dsimp only
      have hd2 := handle_client_connect_distinct o s addr req hd
      cases he : (handle_client_connect o s addr req).2.2 with
      | ok v => exact distinct_of_pres (finishWrite_pres _ _ _ _ _ _) hd2
      | error e => exact hd2
    | response resp =>
      dsimp only
      cases hdk : o.respDecode resp s.challenge_key with
      | none => exact hd
      | some token =>
        dsimp only
        cases hg : s.clients.get? idx with
        | none => exact distinct_of_pres (finishWrite_pres _ _ _ _ _ _) hd
        | some v =>
          cases v with
          | none => exact distinct_of_pres (finishWrite_pres _ _ _ _ _ _) hd
          | some c =>
            dsimp only
            have h1 : idsPreserved s.clients
                (s.clients.set idx (some { c with channel := o.chanKeepAlive c.channel s.time })) :=
              pres_set_same hg rfl
            exact distinct_of_pres
              (idsPreserved_trans h1 (finishWrite_pres _ _ _ _ _ _)) hd
    | connectionDenied => exact distinct_of_pres (finishWrite_pres _ _ _ _ _ _) hd
    | challenge c => exact distinct_of_pres (finishWrite_pres _ _ _ _ _ _) hd
    | keepAlive k => exact distinct_of_pres (finishWrite_pres _ _ _ _ _ _) hd
    | payload len => exact distinct_of_pres (finishWrite_pres _ _ _ _ _ _) hd
    | disconnect => exact distinct_of_pres (finishWrite_pres _ _ _ _ _ _) hd

theorem handle_packet_distinct (o : Oracles) (s : ServerState) (idx : Nat)
    (pkt out : List Nat) (hd : clientIdsDistinct s.clients) :
    clientIdsDistinct (handle_packet o s idx pkt out).s.clients := by
  unfold handle_packet
  by_cases hz : (pkt.length == 0) = true
  · rw [if_pos hz]; exact hd
  · rw [if_neg hz]
    cases hg : s.clients.get? idx with
    | none => exact hd
    | some v =>
      cases v with
      | none => exact hd
      | some client =>
        dsimp only
        cases hr : o.chanRecv client.channel s.time pkt out with
        | error pr =>
          dsimp only
          cases hp1 : pr.1 <;>
            exact distinct_of_pres (pres_set_same hg rfl) hd
        | ok t =>
          dsimp only
          exact handle_packet_state_distinct o _ idx client.client_id client.state
            t.2.1.addr t.1 t.2.2 (distinct_of_pres (pres_set_same hg rfl) hd)

theorem handle_io_distinct (o : Oracles) (s : ServerState) (addr : SockAddr)
    (data out : List Nat) (hd : clientIdsDistinct s.clients) :
    clientIdsDistinct (handle_io o s addr data out).s.clients := by
  unfold handle_io
  cases hf : find_client_by_addr s addr with
  | some idx => exact handle_packet_distinct o s idx data out hd
  | none =>
    dsimp only
    cases hp : o.pktDecode data s.protocol_id with
    | none => exact hd
    | some p =>
      cases p with
      | connectionRequest req => exact handle_client_connect_distinct o s addr req hd
      | connectionDenied => exact hd
      | challenge c => exact hd
      | response r => exact hd
      | keepAlive k => exact hd
      | payload len => exact hd
      | disconnect => exact hd

theorem io_phase_distinct (o : Oracles) :
    ∀ (incoming : List (SockAddr × List Nat)) (s : ServerState) (out : List Nat),
      clientIdsDistinct s.clients → clientIdsDistinct (io_phase o incoming s out).1.clients := by
  intro incoming
  induction incoming with
  | nil => intro s out hd; exact hd
  | cons pr rest ih =>
    intro s out hd
    obtain ⟨addr, data⟩ := pr
    unfold io_phase
    dsimp only
    have hio := handle_io_distinct o s addr data out hd
    cases hr : (handle_io o s addr data out).r with
    | ok v =>
      cases v with
      | none => exact ih _ _ hio
      | some e => exact hio
    | error e => exact hio

theorem tick_loop_pres (o : Oracles) :
    ∀ (fuel : Nat) (s : ServerState), idsPreserved s.clients (tick_loop o fuel s).1.clients := by
  intro fuel
  induction fuel with
  | zero => intro s; exact idsPreserved_refl _
  | succ n ih =>
    intro s
    unfold tick_loop
    by_cases hlt : s.client_event_idx < s.clients.length
    · rw [if_pos hlt]
      cases hg : s.clients.get? s.client_event_idx with
      | none => exact ih _
      | some v =>
        cases v with
        | none => exact ih _
        | some client =>
          dsimp only
          cases htc : (tick_client s.time client o).2 with
          | Noop =>
            exact idsPreserved_trans (pres_set_same hg (tick_client_id _ _ _)) (ih _)
          | SendKeepAlive =>
            exact pres_set_same hg (tick_client_id _ _ _)
          | StateChange st2 =>
            cases st2 with
            | TimedOut => exact pres_set_none
            | Disconnected => exact pres_set_none
            | PendingResponse =>
              dsimp only
              have h1 : idsPreserved s.clients
                  (s.clients.set s.client_event_idx
                    (some { client_id := (tick_client s.time client o).1.client_id,
                            state := ConnectionState.PendingResponse,
                            channel := (tick_client s.time client o).1.channel })) :=
                pres_set_same hg (tick_client_id _ _ _)
              exact idsPreserved_trans h1 (ih _)
            | Idle =>
              dsimp only
              have h1 : idsPreserved s.clients
                  (s.clients.set s.client_event_idx
                    (some { client_id := (tick_client s.time client o).1.client_id,
                            state := ConnectionState.Idle,
                            channel := (tick_client s.time client o).1.channel })) :=
                pres_set_same hg (tick_client_id _ _ _)
              exact idsPreserved_trans h1 (ih _)
    · rw [if_neg hlt]
      exact idsPreserved_refl _

theorem next_event_distinct (o : Oracles) (incoming : List (SockAddr × List Nat))
    (s : ServerState) (out : List Nat) (hd : clientIdsDistinct s.clients) :
    clientIdsDistinct (next_event o incoming s out).1.clients := by
  unfold next_event
  by_cases hb : out.length < NETCODE_MAX_PAYLOAD_SIZE
  · rw [if_pos hb]; exact hd
  · rw [if_neg hb]
    have hio := io_phase_distinct o incoming s out hd
    rcases hre : io_phase o incoming s out with ⟨s1, sent1, left, out1, r5⟩
    rw [hre] at hio
    cases r5 with
    | ok v =>
      cases v with
      | none => exact distinct_of_pres (tick_loop_pres o _ s1) hio
      | some e => exact hio
    | error e => exact hio

theorem step_distinct (o : Oracles) {s s2 : ServerState} (h : Step o s s2)
    (hd : clientIdsDistinct s.clients) : clientIdsDistinct s2.clients := by
  cases h with
  | stepUpdate s2x dt hu =>
    cases Except.ok.inj hu
    exact hd
  | stepSend s2x cid p sent n hs =>
    unfold send at hs
    by_cases hz : (p.length == 0 || decide (p.length > NETCODE_MAX_PAYLOAD_SIZE)) = true
    · rw [if_pos hz] at hs
      exact absurd hs (by simp)
    · rw [if_neg hz] at hs
      exact distinct_of_pres (send_packet_pres o s cid _ (some p) _ sent n hs) hd
  | stepNext incoming out => exact next_event_distinct o incoming s out hd

/-- C1: for every inbound ConnectionRequest, token validation succeeds
(returning the decoded private data) exactly when the request's version
string equals the server's, the wall-clock time satisfies
now ≤ token_expire, the private blob decodes under
(protocol_id, token_expire, sequence, private key), and the server's bound
address is listed in the token's hosts, matching exactly or, when the bound
port is zero, by ip alone; in every other case the request is rejected. -/
theorem claim_token_validation
    (decode : List Nat → Nat → Nat → Nat → Key → Option PrivateData)
    (protocol_id : Nat) (host : SockAddr) (private_key : Key)
    (req : ConnectionRequestPacket) (now : Nat) (v : PrivateData) :
    validate_client_token decode protocol_id host private_key req now = some v ↔
      (req.version = NETCODE_VERSION_STRING ∧ now ≤ req.token_expire ∧
       decode req.private_data protocol_id req.token_expire req.sequence private_key = some v ∧
       (host ∈ v.hosts ∨ (host.port = 0 ∧ host.ip ∈ v.hosts.map SockAddr.ip))) := by
  unfold validate_client_token
  by_cases h1 : req.version = NETCODE_VERSION_STRING
  · rw [if_neg (by simpa using h1)]
    by_cases h2 : now > req.token_expire
    · rw [if_pos h2]
      constructor
      · intro h; exact absurd h (by simp)
      · rintro ⟨-, hle, -⟩; omega
    · rw [if_neg h2]
      cases hd : decode req.private_data protocol_id req.token_expire req.sequence private_key with
      | none =>
        constructor
        · intro h; exact absurd h (by simp)
        · rintro ⟨-, -, hdv, -⟩; exact absurd hdv (by simp)
      | some w =>
        dsimp only
        by_cases hh : w.hosts.any
            (fun thost => thost == host || (host.port == 0 && thost.ip == host.ip)) = true
        · rw [if_pos hh]
          constructor
          · intro h
            obtain rfl := Option.some.inj h
            refine ⟨h1, by omega, rfl, ?_⟩
            obtain ⟨t, ht, hpt⟩ := List.any_eq_true.mp hh
            rcases (by simpa using hpt : t = host ∨ (host.port = 0 ∧ t.ip = host.ip)) with
              h3 | ⟨h4, h5⟩
            · exact Or.inl (h3 ▸ ht)
            · exact Or.inr ⟨h4, List.mem_map.mpr ⟨t, ht, h5⟩⟩
          · rintro ⟨-, -, hdv, -⟩
            obtain rfl := Option.some.inj hdv
            rfl
        · rw [if_neg hh]
          constructor
          · intro h; exact absurd h (by simp)
          · rintro ⟨-, -, hdv, hmem⟩
            obtain rfl := Option.some.inj hdv
            refine absurd (List.any_eq_true.mpr ?_) hh
            rcases hmem with hin | ⟨hp0, hip⟩
            · exact ⟨host, hin, by simp⟩
            · obtain ⟨t, ht, hip2⟩ := List.mem_map.mp hip
              exact ⟨t, ht, by simp [hp0, hip2]⟩
  · rw [if_pos (by simpa using h1)]
    constructor
    · intro h; exact absurd h (by simp)
    · rintro ⟨hv, -⟩; exact absurd hv h1

/-- Witness for C1 at a concrete request that validates. -/
theorem claim_token_validation_witness :
    validate_client_token wOracle.tokenDecode 100 wAddr 99 wReq 5 = some wPd ↔
      (wReq.version = NETCODE_VERSION_STRING ∧ 5 ≤ wReq.token_expire ∧
       wOracle.tokenDecode wReq.private_data 100 wReq.token_expire wReq.sequence 99 = some wPd ∧
       (wAddr ∈ wPd.hosts ∨ (wAddr.port = 0 ∧ wAddr.ip ∈ wPd.hosts.map SockAddr.ip))) :=
  claim_token_validation wOracle.tokenDecode 100 wAddr 99 wReq 5 wPd

/-- C9: next_event called with an undersized out buffer fails with
PacketBufferTooSmall before receiving any datagram (the inbound queue is
left untouched) and without changing any server state or sending anything. -/
theorem claim_buffer_too_small (o : Oracles) (incoming : List (SockAddr × List Nat))
    (s : ServerState) (out : List Nat)
    (h : out.length < NETCODE_MAX_PAYLOAD_SIZE) :
    next_event o incoming s out =
      (s, [], incoming, out, .error UpdateError.PacketBufferTooSmall) := by
  unfold next_event
  rw [if_pos h]

/-- Witness for C9 with an empty out buffer and a queued datagram. -/
theorem claim_buffer_too_small_witness :
    ([] : List Nat).length < NETCODE_MAX_PAYLOAD_SIZE ∧
    next_event wOracle [(wAddrB, [1])] wState [] =
      (wState, [], [(wAddrB, [1])], [], .error UpdateError.PacketBufferTooSmall) :=
  ⟨by decide, claim_buffer_too_small wOracle [(wAddrB, [1])] wState [] (by decide)⟩

/-- C10: update always succeeds despite its fallible signature, adds the
elapsed time to the virtual clock, resets the event cursor to zero, and
changes nothing else: slots, challenge sequence, keys, protocol id and
listen address are all untouched (and by construction it performs no socket
traffic). -/
theorem claim_update_frame_effect (s : ServerState) (dt : Rat) (s2 : ServerState) :
    (update s dt).isOk = true ∧
    (update s dt = .ok s2 →
      s2.time = s.time + dt ∧ s2.client_event_idx = 0 ∧ s2.clients = s.clients ∧
      s2.challenge_sequence = s.challenge_sequence ∧ s2.challenge_key = s.challenge_key ∧
      s2.connect_key = s.connect_key ∧ s2.protocol_id = s.protocol_id ∧
      s2.listen_addr = s.listen_addr) := by
  refine ⟨rfl, fun h => ?_⟩
  obtain rfl := (Except.ok.inj h).symm
  exact ⟨rfl, rfl, rfl, rfl, rfl, rfl, rfl, rfl⟩

/-- C7: send rejects an empty or oversized payload with PacketSize without
touching anything; with a valid size and no occupied slot holding the client
id it fails with InvalidClientId; otherwise, whatever the slot's connection
state, the payload is sealed and sent through the slot's channel and the
byte count the channel reports is returned. -/
theorem claim_send (o : Oracles) (s : ServerState) (client_id : Nat) (payload : List Nat)
    (idx : Nat) (c : Connection) :
    ((payload.length = 0 ∨ payload.length > NETCODE_MAX_PAYLOAD_SIZE) →
      send o s client_id payload = .error SendError.PacketSize) ∧
    (0 < payload.length → payload.length ≤ NETCODE_MAX_PAYLOAD_SIZE →
      find_client_by_id s client_id = none →
      send o s client_id payload = .error SendError.InvalidClientId) ∧
    (0 < payload.length → payload.length ≤ NETCODE_MAX_PAYLOAD_SIZE →
      find_client_by_id s client_id = some idx →
      s.clients.get? idx = some (some c) →
      send o s client_id payload =
        .ok (setSlot s idx (some { c with channel :=
                (o.chanSend c.channel s.time (Packet.payload payload.length) (some payload)).1 }),
             [Sent.chan c.channel.addr (Packet.payload payload.length) (some payload)],
             (o.chanSend c.channel s.time (Packet.payload payload.length) (some payload)).2)) := by
  refine ⟨fun h => ?_, fun h1 h2 hf => ?_, fun h1 h2 hf hc => ?_⟩
  · unfold send
    rw [if_pos]
    rcases h with h | h <;> simp [h]
  · unfold send send_packet
    rw [if_neg, hf]
    simp only [Bool.or_eq_true, beq_iff_eq, decide_eq_true_eq, not_or]
    omega
  · unfold send send_packet
    rw [if_neg, hf]
    · dsimp only
      rw [hc]
    simp only [Bool.or_eq_true, beq_iff_eq, decide_eq_true_eq, not_or]
    omega

/-- Witness for C7 at a two-byte payload on the occupied slot of wState. -/
theorem claim_send_witness :
    ((([1, 2] : List Nat).length = 0 ∨ ([1, 2] : List Nat).length > NETCODE_MAX_PAYLOAD_SIZE) →
      send wOracle wState 7 [1, 2] = .error SendError.PacketSize) ∧
    (0 < ([1, 2] : List Nat).length → ([1, 2] : List Nat).length ≤ NETCODE_MAX_PAYLOAD_SIZE →
      find_client_by_id wState 7 = none →
      send wOracle wState 7 [1, 2] = .error SendError.InvalidClientId) ∧
    (0 < ([1, 2] : List Nat).length → ([1, 2] : List Nat).length ≤ NETCODE_MAX_PAYLOAD_SIZE →
      find_client_by_id wState 7 = some 0 →
      wState.clients.get? 0 = some (some wConn) →
      send wOracle wState 7 [1, 2] =
        .ok (setSlot wState 0 (some { wConn with channel :=
                (wOracle.chanSend wConn.channel wState.time
                  (Packet.payload ([1, 2] : List Nat).length) (some [1, 2])).1 }),
             [Sent.chan wConn.channel.addr (Packet.payload ([1, 2] : List Nat).length) (some [1, 2])],
             (wOracle.chanSend wConn.channel wState.time
               (Packet.payload ([1, 2] : List Nat).length) (some [1, 2])).2)) :=
  claim_send wOracle wState 7 [1, 2] 0 wConn

/-- C5: a datagram from an occupied slot's peer that the channel rejects as a
duplicate sequence yields exactly one ReplayRejected event carrying that
slot's client id; nothing is sent, the out buffer is untouched, and the slot
keeps its id, state and occupancy (only the channel's opaque internals may
move); slots other than idx are untouched, as the result's slot table is the
original with only slot idx rewritten. -/
theorem claim_replay_rejected (o : Oracles) (s : ServerState) (idx : Nat)
    (client : Connection) (packet out : List Nat) (ch2 : Channel)
    (hne : packet.length ≠ 0)
    (hc : s.clients.get? idx = some (some client))
    (hr : o.chanRecv client.channel s.time packet out =
      .error (RecvError.DuplicateSequence, ch2)) :
    handle_packet o s idx packet out =
      ⟨setSlot s idx (some { client with channel := ch2 }), [], out,
       .ok (some (ServerEvent.ReplayRejected client.client_id))⟩ ∧
    (setSlot s idx (some { client with channel := ch2 })).clients.get? idx =
      some (some { client with channel := ch2 }) := by
  refine ⟨?_, ?_⟩
  · unfold handle_packet
    rw [if_neg (by simpa using hne), hc]
    dsimp only
    rw [hr]
  · exact List.get?_set_eq_of_lt _ (get?_some_lt hc)

/-- Witness for C5 on the occupied slot of wState with a duplicate-sequence
receive. -/
theorem claim_replay_rejected_witness :
    (([9] : List Nat).length ≠ 0 ∧
     wState.clients.get? 0 = some (some wConn) ∧
     wOracleDup.chanRecv wConn.channel wState.time [9] [] =
       .error (RecvError.DuplicateSequence, wChan)) ∧
    (handle_packet wOracleDup wState 0 [9] [] =
      ⟨setSlot wState 0 (some { wConn with channel := wChan }), [], [],
       .ok (some (ServerEvent.ReplayRejected wConn.client_id))⟩ ∧
    (setSlot wState 0 (some { wConn with channel := wChan })).clients.get? 0 =
      some (some { wConn with channel := wChan })) :=
  ⟨⟨by decide, rfl, rfl⟩,
   claim_replay_rejected wOracleDup wState 0 wConn [9] [] wChan (by decide) rfl rfl⟩

/-- C6: a datagram from an occupied (established) slot whose channel receive
fails with anything other than a duplicate sequence marks the slot
Disconnected and yields a ClientDisconnect event carrying that slot's client
id. -/
theorem claim_decode_failure_disconnects (o : Oracles) (s : ServerState) (idx : Nat)
    (client : Connection) (packet out : List Nat) (e : RecvError) (ch2 : Channel)
    (hne : packet.length ≠ 0)
    (hc : s.clients.get? idx = some (some client))
    (_hst : client.state = ConnectionState.Idle)
    (he : e ≠ RecvError.DuplicateSequence)
    (hr : o.chanRecv client.channel s.time packet out = .error (e, ch2)) :
    handle_packet o s idx packet out =
      ⟨setSlot s idx
         (some { client with channel := ch2, state := ConnectionState.Disconnected }),
       [], out, .ok (some (ServerEvent.ClientDisconnect client.client_id))⟩ ∧
    (setSlot s idx
       (some { client with channel := ch2, state := ConnectionState.Disconnected })).clients.get? idx =
      some (some { client with channel := ch2, state := ConnectionState.Disconnected }) := by
  refine ⟨?_, ?_⟩
  · unfold handle_packet
    rw [if_neg (by simpa using hne), hc]
    dsimp only
    rw [hr]
    cases e with
    | DuplicateSequence => exact absurd rfl he
    | SocketError => rfl
    | DecodeError => rfl
  · exact List.get?_set_eq_of_lt _ (get?_some_lt hc)

/-- Witness for C6 on the occupied Idle slot of wState with a failing
receive. -/
theorem claim_decode_failure_disconnects_witness :
    (([9] : List Nat).length ≠ 0 ∧
     wState.clients.get? 0 = some (some wConn) ∧
     wConn.state = ConnectionState.Idle ∧
     RecvError.DecodeError ≠ RecvError.DuplicateSequence ∧
     wOracleBad.chanRecv wConn.channel wState.time [9] [] =
       .error (RecvError.DecodeError, wChan)) ∧
    (handle_packet wOracleBad wState 0 [9] [] =
      ⟨setSlot wState 0
         (some { wConn with channel := wChan, state := ConnectionState.Disconnected }),
       [], [], .ok (some (ServerEvent.ClientDisconnect wConn.client_id))⟩ ∧
    (setSlot wState 0
       (some { wConn with channel := wChan, state := ConnectionState.Disconnected })).clients.get? 0 =
      some (some { wConn with channel := wChan, state := ConnectionState.Disconnected })) :=
  ⟨⟨by decide, rfl, rfl, by decide, rfl⟩,
   claim_decode_failure_disconnects wOracleBad wState 0 wConn [9] [] RecvError.DecodeError wChan
     (by decide) rfl rfl (by decide) rfl⟩

/-- C2: while a slot is PendingResponse, a Response packet whose embedded
challenge token authenticates and decrypts under the challenge key copies
the decoded user_data into the front of the out buffer, sends a keep-alive
on that slot's channel, moves the slot to Idle, and reports ClientConnect
with the decoded client id. -/
theorem claim_response_connects (o : Oracles) (s : ServerState) (idx : Nat)
    (client : Connection) (packet out out1 : List Nat) (resp : ResponsePacket)
    (ch2 : Channel) (token : ChallengeToken)
    (hne : packet.length ≠ 0)
    (hc : s.clients.get? idx = some (some client))
    (hst : client.state = ConnectionState.PendingResponse)
    (hr : o.chanRecv client.channel s.time packet out = .ok (Packet.response resp, ch2, out1))
    (hd : o.respDecode resp s.challenge_key = some token)
    (hu : token.user_data.length = NETCODE_USER_DATA_BYTES) :
    handle_packet o s idx packet out =
      ⟨setSlot s idx
         (some ⟨client.client_id, ConnectionState.Idle, o.chanKeepAlive ch2 s.time⟩),
       [Sent.keepAlive ch2.addr],
       token.user_data ++ out1.drop NETCODE_USER_DATA_BYTES,
       .ok (some (ServerEvent.ClientConnect token.client_id))⟩ := by
  have hlt := get?_some_lt hc
  have ht : token.user_data.take NETCODE_USER_DATA_BYTES = token.user_data := by
    rw [← hu]; exact List.take_length _
  unfold handle_packet
  rw [if_neg (by simpa using hne), hc]
  dsimp only
  rw [hr]
  dsimp only
  unfold handle_packet_state
  rw [hst]
  dsimp only [setSlot]
  rw [hd]
  dsimp only
  rw [List.get?_set_eq_of_lt _ hlt]
  dsimp only
  unfold finishWrite
  dsimp only [setSlot]
  rw [List.get?_set_eq_of_lt _ (by simpa using hlt)]
  dsimp only
  rw [List.set_set, List.set_set, ht]

/-- Witness for C2 on the pending slot of wStateP with a decodable
response. -/
theorem claim_response_connects_witness :
    (([9] : List Nat).length ≠ 0 ∧
     wStateP.clients.get? 0 = some (some wConnP) ∧
     wConnP.state = ConnectionState.PendingResponse ∧
     wOracleResp.chanRecv wConnP.channel wStateP.time [9] [] =
       .ok (Packet.response wResp, wChan, []) ∧
     wOracleResp.respDecode wResp wStateP.challenge_key = some wToken ∧
     wToken.user_data.length = NETCODE_USER_DATA_BYTES) ∧
    handle_packet wOracleResp wStateP 0 [9] [] =
      ⟨setSlot wStateP 0
         (some ⟨wConnP.client_id, ConnectionState.Idle, wOracleResp.chanKeepAlive wChan wStateP.time⟩),
       [Sent.keepAlive wChan.addr],
       wToken.user_data ++ ([] : List Nat).drop NETCODE_USER_DATA_BYTES,
       .ok (some (ServerEvent.ClientConnect wToken.client_id))⟩ :=
  ⟨⟨by decide, rfl, rfl, rfl, rfl, by simp [wToken]⟩,
   claim_response_connects wOracleResp wStateP 0 wConnP [9] [] [] wResp wChan wToken
     (by decide) rfl rfl rfl rfl (by simp [wToken])⟩

/-- Counterexample to C3 as stated: a ConnectionRequest that passes
validation while every slot is occupied, but whose client id already holds a
slot, is answered with a re-issued Challenge, not with ConnectionDenied and
ClientSlotFull. -/
theorem claim_reject_and_denied_counterexample :
    (validate_client_token wOracle.tokenDecode wStateFull.protocol_id wStateFull.listen_addr
        wStateFull.connect_key wReq wOracle.now).isSome = true ∧
    wStateFull.clients.all Option.isSome = true ∧
    (handle_client_connect wOracle wStateFull wAddrB wReq).2.2 ≠
      .ok (some ServerEvent.ClientSlotFull) ∧
    (handle_client_connect wOracle wStateFull wAddrB wReq).2.1 =
      [Sent.chan wChan.addr (Packet.challenge ⟨1, [7]⟩) none] := by
  refine ⟨by decide, by decide, ?_, rfl⟩
  rw [show (handle_client_connect wOracle wStateFull wAddrB wReq).2.2 =
        Except.ok none from rfl]
  simp

/-- C3 (amended): a ConnectionRequest that fails token validation produces
exactly one RejectedClient event and no reply datagram; a request that
passes validation, whose client id does not already occupy a slot, while
every slot is occupied, produces one ConnectionDenied datagram sealed with
sequence 0 under the server-to-client key of the decoded token and one
ClientSlotFull event. -/
theorem claim_reject_and_denied (o : Oracles) (s : ServerState) (addr : SockAddr)
    (req : ConnectionRequestPacket) (pd : PrivateData) :
    (validate_client_token o.tokenDecode s.protocol_id s.listen_addr s.connect_key req o.now
        = none →
      handle_client_connect o s addr req = (s, [], .ok (some ServerEvent.RejectedClient))) ∧
    (validate_client_token o.tokenDecode s.protocol_id s.listen_addr s.connect_key req o.now
        = some pd →
      find_client_by_id s pd.client_id = none →
      s.clients.all Option.isSome = true →
      handle_client_connect o s addr req =
        (s, [Sent.denied addr 0 pd.server_to_client_key],
         .ok (some ServerEvent.ClientSlotFull))) := by
  refine ⟨fun hv => ?_, fun hv hf hfull => ?_⟩
  · unfold handle_client_connect
    rw [hv]
  · unfold handle_client_connect
    rw [hv]
    dsimp only
    rw [hf]
    dsimp only
    have hpos : position (fun v => v.isNone) s.clients = none := by
      apply position_eq_none_of
      intro x hx
      have hs := List.all_eq_true.mp hfull x hx
      cases x with
      | none => simp at hs
      | some c => rfl
    rw [hpos]

/-- Witness for the amended C3: a fresh client id presented to a full
table. -/
theorem claim_reject_and_denied_witness :
    (validate_client_token wOracle9.tokenDecode wStateFull.protocol_id wStateFull.listen_addr
        wStateFull.connect_key wReq wOracle9.now = none →
      handle_client_connect wOracle9 wStateFull wAddrB wReq =
        (wStateFull, [], .ok (some ServerEvent.RejectedClient))) ∧
    (validate_client_token wOracle9.tokenDecode wStateFull.protocol_id wStateFull.listen_addr
        wStateFull.connect_key wReq wOracle9.now = some wPd9 →
      find_client_by_id wStateFull wPd9.client_id = none →
      wStateFull.clients.all Option.isSome = true →
      handle_client_connect wOracle9 wStateFull wAddrB wReq =
        (wStateFull, [Sent.denied wAddrB 0 wPd9.server_to_client_key],
         .ok (some ServerEvent.ClientSlotFull))) :=
  claim_reject_and_denied wOracle9 wStateFull wAddrB wReq wPd9

theorem next_event_no_io (o : Oracles) (s : ServerState) (out : List Nat)
    (hbuf : ¬ out.length < NETCODE_MAX_PAYLOAD_SIZE) :
    next_event o [] s out =
      ((tick_phase o s).1, (tick_phase o s).2.1, [], out, .ok (tick_phase o s).2.2) := by
  unfold next_event
  rw [if_neg hbuf]
  rfl

/-- C8: in next_event's tick phase (an exhausted inbound queue), iteration
starts at the saved cursor: at or past capacity the call returns none; an
occupied slot whose liveness tick reports a state change to TimedOut or
Disconnected is released and ClientDisconnect with its client id is
returned, with the cursor moved past it; a tick that sent a keep-alive
returns KeepAlive with that client id, cursor moved past; an empty slot or a
Noop tick advances the cursor and the call continues identically from the
next slot. -/
theorem claim_tick_phase (o : Oracles) (s : ServerState) (out : List Nat)
    (client client2 : Connection) (st : ConnectionState)
    (hbuf : NETCODE_MAX_PAYLOAD_SIZE ≤ out.length) :
    (s.clients.length ≤ s.client_event_idx →
      next_event o [] s out = (s, [], [], out, .ok none)) ∧
    (s.clients.get? s.client_event_idx = some (some client) →
      tick_client s.time client o = (client2, TickResult.StateChange st) →
      (st = ConnectionState.TimedOut ∨ st = ConnectionState.Disconnected) →
      next_event o [] s out =
        (advanceCursor (setSlot s s.client_event_idx none), [], [], out,
         .ok (some (ServerEvent.ClientDisconnect client.client_id)))) ∧
    (s.clients.get? s.client_event_idx = some (some client) →
      tick_client s.time client o = (client2, TickResult.SendKeepAlive) →
      next_event o [] s out =
        (advanceCursor (setSlot s s.client_event_idx (some client2)),
         [Sent.keepAlive client2.channel.addr], [], out,
         .ok (some (ServerEvent.KeepAlive client.client_id)))) ∧
    (s.clients.get? s.client_event_idx = some none →
      next_event o [] s out = next_event o [] (advanceCursor s) out) ∧
    (s.clients.get? s.client_event_idx = some (some client) →
      tick_client s.time client o = (client2, TickResult.Noop) →
      next_event o [] s out =
        next_event o [] (advanceCursor (setSlot s s.client_event_idx (some client2))) out) := by
  have hb2 : ¬ out.length < NETCODE_MAX_PAYLOAD_SIZE := by omega
  refine ⟨fun h1 => ?_, fun hc htc hst => ?_, fun hc htc => ?_, fun hc => ?_, fun hc htc => ?_⟩
  · rw [next_event_no_io o s out hb2]
    unfold tick_phase
    rw [Nat.sub_eq_zero_of_le h1]
    rfl
  · have hlt := get?_some_lt hc
    rw [next_event_no_io o s out hb2]
    unfold tick_phase
    rw [show s.clients.length - s.client_event_idx
          = (s.clients.length - (s.client_event_idx + 1)) + 1 from by omega]
    simp only [tick_loop]
    rw [if_pos hlt, hc]
    dsimp only
    rw [htc]
    rcases hst with rfl | rfl <;> rfl
  · have hlt := get?_some_lt hc
    rw [next_event_no_io o s out hb2]
    unfold tick_phase
    rw [show s.clients.length - s.client_event_idx
          = (s.clients.length - (s.client_event_idx + 1)) + 1 from by omega]
    simp only [tick_loop]
    rw [if_pos hlt, hc]
    dsimp only
    rw [htc]
  · have hlt := get?_some_lt hc
    rw [next_event_no_io o s out hb2, next_event_no_io o (advanceCursor s) out hb2]
    unfold tick_phase
    rw [show s.clients.length - s.client_event_idx
          = (s.clients.length - (s.client_event_idx + 1)) + 1 from by omega]
    simp only [tick_loop]
    rw [if_pos hlt, hc]
    dsimp only [advanceCursor]
  · have hlt := get?_some_lt hc
    rw [next_event_no_io o s out hb2,
        next_event_no_io o (advanceCursor (setSlot s s.client_event_idx (some client2))) out hb2]
    unfold tick_phase
    rw [show s.clients.length - s.client_event_idx
          = (s.clients.length - (s.client_event_idx + 1)) + 1 from by omega]
    simp only [tick_loop]
    rw [if_pos hlt, hc]
    dsimp only
    rw [htc]
    dsimp only [advanceCursor, setSlot]
    rw [List.length_set]

/-- Oracle whose channel liveness tick reports a sent keep-alive. -/
def wOracleKA : Oracles :=
  { wOracle with chanUpdate := fun c _ _ => (c, ChanUpdateResult.SentKeepAlive) }

/-- Witness for C8 on wState, whose Idle slot 0 reports a keep-alive. -/
theorem claim_tick_phase_witness :
    (wState.clients.length ≤ wState.client_event_idx →
      next_event wOracleKA [] wState (List.replicate NETCODE_MAX_PAYLOAD_SIZE 0) =
        (wState, [], [], List.replicate NETCODE_MAX_PAYLOAD_SIZE 0, .ok none)) ∧
    (wState.clients.get? wState.client_event_idx = some (some wConn) →
      tick_client wState.time wConn wOracleKA = (wConn, TickResult.StateChange ConnectionState.TimedOut) →
      (ConnectionState.TimedOut = ConnectionState.TimedOut ∨
       ConnectionState.TimedOut = ConnectionState.Disconnected) →
      next_event wOracleKA [] wState (List.replicate NETCODE_MAX_PAYLOAD_SIZE 0) =
        (advanceCursor (setSlot wState wState.client_event_idx none), [], [],
         List.replicate NETCODE_MAX_PAYLOAD_SIZE 0,
         .ok (some (ServerEvent.ClientDisconnect wConn.client_id)))) ∧
    (wState.clients.get? wState.client_event_idx = some (some wConn) →
      tick_client wState.time wConn wOracleKA = (wConn, TickResult.SendKeepAlive) →
      next_event wOracleKA [] wState (List.replicate NETCODE_MAX_PAYLOAD_SIZE 0) =
        (advanceCursor (setSlot wState wState.client_event_idx (some wConn)),
         [Sent.keepAlive wConn.channel.addr], [],
         List.replicate NETCODE_MAX_PAYLOAD_SIZE 0,
         .ok (some (ServerEvent.KeepAlive wConn.client_id)))) ∧
    (wState.clients.get? wState.client_event_idx = some none →
      next_event wOracleKA [] wState (List.replicate NETCODE_MAX_PAYLOAD_SIZE 0) =
        next_event wOracleKA [] (advanceCursor wState) (List.replicate NETCODE_MAX_PAYLOAD_SIZE 0)) ∧
    (wState.clients.get? wState.client_event_idx = some (some wConn) →
      tick_client wState.time wConn wOracleKA = (wConn, TickResult.Noop) →
      next_event wOracleKA [] wState (List.replicate NETCODE_MAX_PAYLOAD_SIZE 0) =
        next_event wOracleKA []
          (advanceCursor (setSlot wState wState.client_event_idx (some wConn)))
          (List.replicate NETCODE_MAX_PAYLOAD_SIZE 0)) :=
  claim_tick_phase wOracleKA wState (List.replicate NETCODE_MAX_PAYLOAD_SIZE 0) wConn wConn
    ConnectionState.TimedOut (by simp)

/-- C4: along any sequence of server operations (updates, sends, next_event
calls) the occupied slots' client ids stay pairwise distinct; and a valid
ConnectionRequest whose client id already occupies slot idx allocates no new
slot: the server reuses the existing slot, bumps challenge_sequence, and
re-sends a Challenge through that slot's channel, leaving the slot table
otherwise as it was (only slot idx's channel value is rewritten, so state
and occupancy are kept). -/
theorem claim_slot_ids_distinct (o : Oracles) (s0 s : ServerState) (addr : SockAddr)
    (req : ConnectionRequestPacket) (pd : PrivateData) (idx : Nat) (c : Connection) :
    (Relation.ReflTransGen (Step o) s0 s → clientIdsDistinct s0.clients →
      clientIdsDistinct s.clients) ∧
    (validate_client_token o.tokenDecode s.protocol_id s.listen_addr s.connect_key req o.now
        = some pd →
      find_client_by_id s pd.client_id = some idx →
      s.clients.get? idx = some (some c) →
      handle_client_connect o s addr req =
        (setSlot { s with challenge_sequence := s.challenge_sequence + 1 } idx
           (some { c with channel := (o.chanSend c.channel s.time
               (Packet.challenge (o.genChallenge pd.client_id pd.user_data
                 (s.challenge_sequence + 1) s.challenge_key)) none).1 }),
         [Sent.chan c.channel.addr
           (Packet.challenge (o.genChallenge pd.client_id pd.user_data
             (s.challenge_sequence + 1) s.challenge_key)) none],
         .ok none)) := by
  constructor
  · intro hr
    induction hr with
    | refl => exact fun hd0 => hd0
    | tail hab hbc ih => exact fun hd0 => step_distinct o hbc (ih hd0)
  · intro hv hf hg
    unfold handle_client_connect
    rw [hv]
    dsimp only
    rw [hf]
    dsimp only
    unfold hcc_challenge
    dsimp only
    unfold send_packet
    rw [show find_client_by_id { s with challenge_sequence := s.challenge_sequence + 1 }
          pd.client_id = some idx from hf]
    dsimp only
    rw [show ({ s with challenge_sequence := s.challenge_sequence + 1 } :
          ServerState).clients.get? idx = some (some c) from hg]

/-- Witness for C4 at wState: reflexive reachability, and a re-request for
client 7 which already occupies slot 0. -/
theorem claim_slot_ids_distinct_witness :
    (Relation.ReflTransGen (Step wOracle) wState wState → clientIdsDistinct wState.clients →
      clientIdsDistinct wState.clients) ∧
    (validate_client_token wOracle.tokenDecode wState.protocol_id wState.listen_addr
        wState.connect_key wReq wOracle.now = some wPd →
      find_client_by_id wState wPd.client_id = some 0 →
      wState.clients.get? 0 = some (some wConn) →
      handle_client_connect wOracle wState wAddrB wReq =
        (setSlot { wState with challenge_sequence := wState.challenge_sequence + 1 } 0
           (some { wConn with channel := (wOracle.chanSend wConn.channel wState.time
               (Packet.challenge (wOracle.genChallenge wPd.client_id wPd.user_data
                 (wState.challenge_sequence + 1) wState.challenge_key)) none).1 }),
         [Sent.chan wConn.channel.addr
           (Packet.challenge (wOracle.genChallenge wPd.client_id wPd.user_data
             (wState.challenge_sequence + 1) wState.challenge_key)) none],
         .ok none)) :=
  claim_slot_ids_distinct wOracle wState wState wAddrB wReq wPd 0 wConn

/-- Witness for C10 at a concrete state and elapsed time. -/
theorem claim_update_frame_effect_witness :
    (update wState (3 / 2)).isOk = true ∧
    (update wState (3 / 2) = .ok { wState with time := 3 / 2, client_event_idx := 0 } →
      ({ wState with time := 3 / 2, client_event_idx := 0 } : ServerState).time
          = wState.time + 3 / 2 ∧
      ({ wState with time := 3 / 2, client_event_idx := 0 } : ServerState).client_event_idx
          = 0 ∧
      ({ wState with time := 3 / 2, client_event_idx := 0 } : ServerState).clients
          = wState.clients ∧
      ({ wState with time := 3 / 2, client_event_idx := 0 } : ServerState).challenge_sequence
          = wState.challenge_sequence ∧
      ({ wState with time := 3 / 2, client_event_idx := 0 } : ServerState).challenge_key
          = wState.challenge_key ∧
      ({ wState with time := 3 / 2, client_event_idx := 0 } : ServerState).connect_key
          = wState.connect_key ∧
      ({ wState with time := 3 / 2, client_event_idx := 0 } : ServerState).protocol_id
          = wState.protocol_id ∧
      ({ wState with time := 3 / 2, client_event_idx := 0 } : ServerState).listen_addr
          = wState.listen_addr) :=
  claim_update_frame_effect wState (3 / 2) { wState with time := 3 / 2, client_event_idx := 0 }

end Netcode
